import Mathlib

/-!
Verification development for the worldbank-api-pipeline script
(src/api_fetcher.py): a shallow embedding of its data model and control
flow, followed by theorems settling the specification claims.

Python runtime values are embedded as the inductive type PyVal; Python
exceptions are embedded as the error side of Except String; Python floats
and pandas numerics are embedded as exact rationals (Rat); pandas NaN is
embedded as Option.none in coerced value columns.
-/

inductive PyVal where
  | pnone : PyVal
  | pbool : Bool → PyVal
  | pint : Int → PyVal
  | pfloat : Rat → PyVal
  | pnan : PyVal
  | pstr : String → PyVal
  | plist : List PyVal → PyVal
  | pdict : List (PyVal × PyVal) → PyVal

open PyVal

mutual

def pyBEq : PyVal → PyVal → Bool
  | pnone, pnone => true
  | pbool a, pbool b => a == b
  | pint a, pint b => a == b
  | pfloat a, pfloat b => a == b
  | pnan, pnan => true
  | pstr a, pstr b => a == b
  | plist xs, plist ys => pyListBEq xs ys
  | pdict xs, pdict ys => pyKvsBEq xs ys
  | _, _ => false

def pyListBEq : List PyVal → List PyVal → Bool
  | [], [] => true
  | x :: xs, y :: ys => pyBEq x y && pyListBEq xs ys
  | _, _ => false

def pyKvsBEq : List (PyVal × PyVal) → List (PyVal × PyVal) → Bool
  | [], [] => true
  | (k, v) :: xs, (k2, v2) :: ys => pyBEq k k2 && pyBEq v v2 && pyKvsBEq xs ys
  | _, _ => false

end

mutual

theorem pyBEq_iff : ∀ a b : PyVal, pyBEq a b = true ↔ a = b
  | pnone, b => by cases b <;> simp [pyBEq]
  | pbool a, b => by cases b <;> simp [pyBEq]
  | pint a, b => by cases b <;> simp [pyBEq]
  | pfloat a, b => by cases b <;> simp [pyBEq]
  | pnan, b => by cases b <;> simp [pyBEq]
  | pstr a, b => by cases b <;> simp [pyBEq]
  | plist xs, b => by
      cases b <;> simp [pyBEq]
      exact pyListBEq_iff xs _
  | pdict xs, b => by
      cases b <;> simp [pyBEq]
      exact pyKvsBEq_iff xs _

theorem pyListBEq_iff : ∀ xs ys : List PyVal, pyListBEq xs ys = true ↔ xs = ys
  | [], ys => by cases ys <;> simp [pyListBEq]
  | x :: xs, ys => by
      cases ys with
      | nil => simp [pyListBEq]
      | cons y ys =>
        simp [pyListBEq, Bool.and_eq_true, pyBEq_iff x y, pyListBEq_iff xs ys]

theorem pyKvsBEq_iff : ∀ xs ys : List (PyVal × PyVal), pyKvsBEq xs ys = true ↔ xs = ys
  | [], ys => by cases ys <;> simp [pyKvsBEq]
  | (k, v) :: xs, ys => by
      cases ys with
      | nil => simp [pyKvsBEq]
      | cons y ys =>
        obtain ⟨k2, v2⟩ := y
        simp [pyKvsBEq, Bool.and_eq_true, pyBEq_iff k k2, pyBEq_iff v v2,
          pyKvsBEq_iff xs ys, Prod.ext_iff]

end

instance : DecidableEq PyVal := fun a b =>
  decidable_of_iff (pyBEq a b = true) (pyBEq_iff a b)

/-- Python truthiness of an embedded value, as used by conditions such as
if not payload. -/
def pyTruthy : PyVal → Bool
  | pnone => false
  | pbool b => b
  | pint n => decide (n ≠ 0)
  | pfloat q => decide (q ≠ 0)
  | pnan => true
  | pstr s => decide (s ≠ "")
  | plist xs => !xs.isEmpty
  | pdict kvs => !kvs.isEmpty

/-- Lookup in an embedded Python dict (association list with unique keys,
first match returned). -/
def dictFind : List (PyVal × PyVal) → PyVal → Option PyVal
  | [], _ => none
  | (k, v) :: rest, key => if k = key then some v else dictFind rest key

/-- Item assignment d[k] = v on an embedded Python dict: overwrite in place
when the key exists, append otherwise. -/
def dictSet : List (PyVal × PyVal) → PyVal → PyVal → List (PyVal × PyVal)
  | [], k, v => [(k, v)]
  | (k2, v2) :: rest, k, v =>
      if k2 = k then (k2, v) :: rest else (k2, v2) :: dictSet rest k v

/-- Python iteration over an embedded value: lists yield elements, strings
yield one-character strings, dicts yield keys, everything else raises
TypeError. -/
def pyIter : PyVal → Except String (List PyVal)
  | plist xs => .ok xs
  | pstr s => .ok (s.data.map (fun c => pstr (String.mk [c])))
  | pdict kvs => .ok (kvs.map Prod.fst)
  | _ => .error "TypeError: object is not iterable"

/-- View of an embedded value as a dict; raises AttributeError when a dict
method such as get is used on a non-dict, mirroring Python. -/
def asDict : PyVal → Except String (List (PyVal × PyVal))
  | pdict kvs => .ok kvs
  | _ => .error "AttributeError: object has no attribute get"

/-- Optional view of an embedded value as a dict, mirroring
isinstance(x, dict). -/
def asDictOpt : PyVal → Option (List (PyVal × PyVal))
  | pdict kvs => some kvs
  | _ => none

instance {ε α : Type} [DecidableEq ε] [DecidableEq α] :
    DecidableEq (Except ε α) := fun a b =>
  match a, b with
  | .ok x, .ok y =>
      decidable_of_iff (x = y) ⟨fun h => h ▸ rfl, fun h => by injection h⟩
  | .error e, .error f =>
      decidable_of_iff (e = f) ⟨fun h => h ▸ rfl, fun h => by injection h⟩
  | .ok _, .error _ => .isFalse (fun h => by injection h)
  | .error _, .ok _ => .isFalse (fun h => by injection h)

/-- Test of a list being an initial segment of another, elementwise. -/
def startsChars : List Char → List Char → Bool
  | [], _ => true
  | _ :: _, [] => false
  | p :: ps, c :: cs => p == c && startsChars ps cs

/-- Model of the Python method s.startswith(pat): pat is an initial segment
of the characters of s. -/
def strStartsWith (s pat : String) : Bool := startsChars pat.data s.data

/-- Model of the Python slice s[n:] (by code points). -/
def strDropChars (s : String) (n : Nat) : String := String.mk (s.data.drop n)

/-- Whitespace characters stripped by the Python int constructor (ASCII
subset). -/
def isPyWs (c : Char) : Bool :=
  c = ' ' || c = '\t' || c = '\n' || c = '\r' || c = '\x0b' || c = '\x0c'

def digitVal (c : Char) : Nat := c.toNat - 48

/-- Continuation of digit parsing for the Python int constructor: digits
with single underscores allowed between digits. -/
def digitsTail : List Char → Nat → Option Nat
  | [], acc => some acc
  | c :: rest, acc =>
      if c = '_' then
        match rest with
        | c2 :: rest2 =>
            if c2.isDigit then digitsTail rest2 (acc * 10 + digitVal c2)
            else none
        | [] => none
      else if c.isDigit then digitsTail rest (acc * 10 + digitVal c)
      else none

/-- Digit run for the Python int constructor: must start with a digit. -/
def digitsCore : List Char → Option Nat
  | c :: rest => if c.isDigit then digitsTail rest (digitVal c) else none
  | [] => none

/-- Model of the Python built-in int applied to a string (ASCII digits):
surrounding whitespace stripped, one optional sign, then digits with
underscores allowed between digits; none models ValueError. -/
def pyIntOfString (s : String) : Option Int :=
  match ((s.data.dropWhile isPyWs).reverse.dropWhile isPyWs).reverse with
  | [] => none
  | c :: rest =>
      if c = '+' then (digitsCore rest).map (fun n => (n : Int))
      else if c = '-' then (digitsCore rest).map (fun n => -(n : Int))
      else (digitsCore (c :: rest)).map (fun n => (n : Int))

def natOfDigits (cs : List Char) : Nat :=
  cs.foldl (fun a c => a * 10 + digitVal c) 0

/-- Unsigned decimal literal as parsed by the numeric coercion of
pd.to_numeric on strings: digits with an optional fractional part. -/
def decimalCore (cs : List Char) : Option Rat :=
  let intPart := cs.takeWhile Char.isDigit
  let rest := cs.dropWhile Char.isDigit
  match rest with
  | [] => if intPart.isEmpty then none else some ((natOfDigits intPart : Rat))
  | '.' :: fracs =>
      if fracs.all Char.isDigit && !(intPart.isEmpty && fracs.isEmpty) then
        some (mkRat
          (natOfDigits intPart * 10 ^ fracs.length + natOfDigits fracs)
          (10 ^ fracs.length))
      else none
  | _ => none

/-- Model of numeric parsing of a string by pd.to_numeric: optional sign and
a decimal literal; none models an unconvertible string (NaN under
errors equal to coerce). -/
def pyNumOfString (s : String) : Option Rat :=
  match s.data with
  | '+' :: rest => decimalCore rest
  | '-' :: rest => (decimalCore rest).map (fun q => -q)
  | rest => decimalCore rest

/-- Model of pd.to_numeric with errors equal to coerce on one cell of the
value column: numbers pass through, booleans become 0 or 1, strings are
parsed, everything unconvertible becomes NaN (none). -/
def toNumeric : PyVal → Option Rat
  | pint n => some (n : Rat)
  | pbool b => some (if b then 1 else 0)
  | pfloat q => some q
  | pnan => none
  | pnone => none
  | pstr s => pyNumOfString s
  | plist _ => none
  | pdict _ => none

/-!
The retry helper fetch_one_page of src/api_fetcher.py. The outcome of one
HTTP attempt (requests.get, raise_for_status, json decoding) at a given
0-based attempt index is supplied as a function into Except: ok carries the
decoded payload, error carries a RequestException message. The model records
the returned value, the total time slept in backoff, and how many attempts
were made.
-/

structure FetchResult where
  result : PyVal
  slept : Rat
  attempts : Nat
deriving DecidableEq

/-- Body of the retry loop of fetch_one_page, structurally recursive on the
number of remaining iterations of range(max_retries); k is the current
0-based attempt index. On failure with iterations remaining it sleeps
delay * (k + 1) and retries; on failure at the last iteration it returns the
empty dict; falling out of the loop returns Python None. -/
def fetchLoop (attempt : Nat → Except String PyVal) (delay : Rat) :
    Nat → Nat → FetchResult
  | 0, _ => ⟨pnone, 0, 0⟩
  | remaining + 1, k =>
      match attempt k with
      | .ok v => ⟨v, 0, 1⟩
      | .error _ =>
          if remaining = 0 then ⟨pdict [], 0, 1⟩
          else
            let r := fetchLoop attempt delay remaining (k + 1)
            ⟨r.result, delay * ((k : Rat) + 1) + r.slept, r.attempts + 1⟩

/-- The function fetch_one_page: run the retry loop for max_retries
iterations (none when max_retries is not positive) starting at attempt
index 0. -/
def fetch_one_page (attempt : Nat → Except String PyVal) (max_retries : Int)
    (delay : Rat) : FetchResult :=
  fetchLoop attempt delay max_retries.toNat 0

/-!
The helper to_lookup and the row flattener parse_rows.
-/

/-- One iteration of the loop body of to_lookup: a dict item owning a
concept key is inserted into the lookup under its concept name
(overwriting an earlier entry with the same name); every other item is
skipped. -/
def conceptStep (lk : List (PyVal × PyVal)) (item : PyVal) :
    List (PyVal × PyVal) :=
  match item with
  | pdict kvs =>
      match dictFind kvs (pstr "concept") with
      | some cname => dictSet lk cname (pdict kvs)
      | none => lk
  | _ => lk

/-- The function to_lookup: iterate var_list or the empty list (Python
truthiness) and index the well-formed concept entries by concept name. -/
def to_lookup (var_list : PyVal) : Except String (List (PyVal × PyVal)) := do
  let items ← pyIter (if pyTruthy var_list then var_list else plist [])
  .ok (items.foldl conceptStep [])

/-- The expression lk.get(name, dict()) used by parse_rows. -/
def lookupGet (lk : List (PyVal × PyVal)) (name : String) : PyVal :=
  (dictFind lk (pstr name)).getD (pdict [])

/-- The expression d.get(key) with default None; raises AttributeError on a
non-dict receiver, mirroring Python. -/
def pyDictGetOpt (v : PyVal) (key : String) : Except String PyVal :=
  match v with
  | pdict kvs => .ok ((dictFind kvs (pstr key)).getD pnone)
  | _ => .error "AttributeError: object has no attribute get"

/-- The year computation of parse_rows: a string time identifier beginning
with YR has the remainder passed to int, with ValueError mapped to an
absent year; any other value gives an absent year. -/
def yearOf (time_id : PyVal) : Option Int :=
  match time_id with
  | pstr s =>
      if strStartsWith s "YR" then pyIntOfString (strDropChars s 2) else none
  | _ => none

/-- The flat dictionary returned by parse_rows, before the pandas numeric
coercion of the value column. -/
structure FlatRow where
  country_id : PyVal
  country_name : PyVal
  series_id : PyVal
  series_name : PyVal
  year : Option Int
  value : PyVal
deriving DecidableEq

/-- The function parse_rows, applied to the key-value pairs of one raw row
dict. -/
def parse_rows (row : List (PyVal × PyVal)) : Except String FlatRow := do
  let var_list := (dictFind row (pstr "variable")).getD (plist [])
  let lk ← to_lookup var_list
  let country_id ← pyDictGetOpt (lookupGet lk "Country") "id"
  let country_name ← pyDictGetOpt (lookupGet lk "Country") "value"
  let series_id ← pyDictGetOpt (lookupGet lk "Series") "id"
  let series_name ← pyDictGetOpt (lookupGet lk "Series") "value"
  let time_id ← pyDictGetOpt (lookupGet lk "Time") "id"
  let value := (dictFind row (pstr "value")).getD pnone
  .ok ⟨country_id, country_name, series_id, series_name, yearOf time_id, value⟩

/-- A flattened row after the pandas numeric coercion of its value cell. -/
structure FlatNum where
  country_id : PyVal
  country_name : PyVal
  series_id : PyVal
  series_name : PyVal
  year : Option Int
  value : Option Rat
deriving DecidableEq

def coerceRow (r : FlatRow) : FlatNum :=
  ⟨r.country_id, r.country_name, r.series_id, r.series_name, r.year,
    toNumeric r.value⟩

/-- A row of a finalized country dataset, after the requested_country
column is added. -/
structure FlatRecord where
  country_id : PyVal
  country_name : PyVal
  series_id : PyVal
  series_name : PyVal
  year : Option Int
  value : Option Rat
  requested_country : String
deriving DecidableEq

def tagRecord (code : String) (r : FlatNum) : FlatRecord :=
  ⟨r.country_id, r.country_name, r.series_id, r.series_name, r.year,
    r.value, code⟩

/-!
The per-country pagination of the module body. The network is supplied as a
function from the page number to the value returned by fetch_one_page for
that page. The model returns the list of page numbers actually fetched
together with either a raised exception or the contribution of that country
(none when the country is skipped by a continue statement).
-/

/-- The page-to-rows computation shared by the page 1 block and the loop
body: payload.get with key source (default empty dict), then .get with key
data (default empty list), then parse_rows over the dict entries of the
iterated rows. -/
def parsePage (payloadKvs : List (PyVal × PyVal)) :
    Except String (List FlatRow) := do
  let srcKvs ← asDict ((dictFind payloadKvs (pstr "source")).getD (pdict []))
  let rows := (dictFind srcKvs (pstr "data")).getD (plist [])
  let items ← pyIter rows
  (items.filterMap asDictOpt).mapM parse_rows

/-- The value range(a, b) of the for loop over the remaining pages, as a
list of page numbers. -/
def rangeList (a b : Int) : List Int :=
  (List.range (b - a).toNat).map (fun i => a + (i : Int))

/-- Conversion demanded by range(2, total_pages + 1): total_pages must be an
integer (a bool counts as its integer value); anything else raises
TypeError. -/
def pyToInt : PyVal → Except String Int
  | pint n => .ok n
  | pbool b => .ok (if b then 1 else 0)
  | _ => .error "TypeError: range argument must be an integer"

/-- The loop over pages 2..total_pages of the module body, over the
remaining list of page numbers. Note that the row source inside the loop is
payloadKvs, the payload of page 1, exactly as in the source line
rows_p = payload.get with key source: the per-page payload payload_p is
only used for the truthiness test. A falsy payload_p skips the page
(continue); an empty parsed page breaks; otherwise the coerced rows are
appended. -/
def pagesLoop (fetch : Int → PyVal) (payloadKvs : List (PyVal × PyVal)) :
    List Int → List Int × Except String (List FlatNum)
  | [] => ([], .ok [])
  | p :: ps =>
      let payload_p := fetch p
      if pyTruthy payload_p then
        match parsePage payloadKvs with
        | .error e => ([p], .error e)
        | .ok parsed =>
            if parsed.isEmpty then ([p], .ok [])
            else
              match pagesLoop fetch payloadKvs ps with
              | (tr, .ok tail) =>
                  (p :: tr, .ok (parsed.map coerceRow ++ tail))
              | (tr, .error e) => (p :: tr, .error e)
      else
        let rest := pagesLoop fetch payloadKvs ps
        (p :: rest.1, rest.2)

/-- One iteration of the per-country loop of the module body: fetch page 1,
skip the country on a falsy payload or an empty parsed first page,
otherwise read total_pages (default 1), run the remaining-pages loop and
tag every accumulated record with the requested country code. The first
component lists the pages fetched; the second is ok none when the country
contributes nothing, ok (some records) when a dataset is finalized, and
error when a Python exception propagates. -/
def processCountry (fetch : Int → PyVal) (code : String) :
    List Int × Except String (Option (List FlatRecord)) :=
  let payload := fetch 1
  if pyTruthy payload then
    match asDict payload with
    | .error e => ([1], .error e)
    | .ok payloadKvs =>
        let total_pages := (dictFind payloadKvs (pstr "pages")).getD (pint 1)
        match parsePage payloadKvs with
        | .error e => ([1], .error e)
        | .ok parsed =>
            if parsed.isEmpty then ([1], .ok none)
            else
              let page1 := parsed.map coerceRow
              match pyToInt total_pages with
              | .error e => ([1], .error e)
              | .ok tp =>
                  match pagesLoop fetch payloadKvs (rangeList 2 (tp + 1)) with
                  | (tr, .error e) => (1 :: tr, .error e)
                  | (tr, .ok tail) =>
                      (1 :: tr,
                        .ok (some ((page1 ++ tail).map (tagRecord code))))
  else
    ([1], .ok none)

/-- The configured country list of the module. -/
def country_codes : List String :=
  ["EGY", "MAR", "SAU", "JOR", "TUN", "IRQ", "YEM", "OMN", "QAT", "BHR",
   "KWT", "DZA", "LBY"]

/-- The combine-and-summary tail of the module body: with a non-empty list
of per-country datasets the combined dataset df is their concatenation and
is persisted; with an empty list only a warning is printed, df is never
assigned, and the final summary line evaluating len(df) raises NameError. -/
def combineAndSummary (alls : List (List FlatRecord)) :
    Except String (List FlatRecord) :=
  if alls.isEmpty then .error "NameError: name df is not defined"
  else .ok alls.flatten

/-- The whole module body after configuration: run every configured country
in order against the supplied network, collect the finalized datasets, and
run the combine-and-summary tail. -/
def fullRun (fetch : String → Int → PyVal) :
    Except String (List FlatRecord) := do
  let results ← country_codes.mapM (fun code => (processCountry (fetch code) code).2)
  combineAndSummary (results.filterMap id)

/-!
Specification-side definitions, written from the wording of the spec and
used to state the claims against the embedded code.
-/

/-- Reading of the spec: an item of a concept list is the entry named c
when it is a well-formed concept record whose concept field equals c. -/
def isConceptNamed (c : PyVal) (item : PyVal) : Bool :=
  match item with
  | pdict kvs =>
      match dictFind kvs (pstr "concept") with
      | some name => decide (name = c)
      | none => false
  | _ => false

/-- Reading of the spec: the last concept entry of the list named c, the
entry that last-write-wins insertion must surface. -/
def lastConcept (xs : List PyVal) (c : PyVal) : Option PyVal :=
  xs.reverse.find? (isConceptNamed c)

/-- Reading of the spec: a well-formed concept record owning a concept-name
field. -/
def isConceptEntry : PyVal → Bool
  | pdict kvs => (dictFind kvs (pstr "concept")).isSome
  | _ => false

/-- Well-typedness of a RawRow per the data model of the spec: the value
under the variable key, when present, is a concept list or null. -/
def rowVarOk (row : List (PyVal × PyVal)) : Bool :=
  match dictFind row (pstr "variable") with
  | none => true
  | some pnone => true
  | some (plist _) => true
  | some _ => false

/-- The concept list of a RawRow (absent or null read as the empty list). -/
def varListOfRow (row : List (PyVal × PyVal)) : List PyVal :=
  match (dictFind row (pstr "variable")).getD (plist []) with
  | plist xs => xs
  | _ => []

/-- Reading of the spec: the field of the last concept entry of the row
named cname, absent when the entry or the field is missing. -/
def fieldOf (row : List (PyVal × PyVal)) (cname field : String) : PyVal :=
  match lastConcept (varListOfRow row) (pstr cname) with
  | some (pdict kvs) => (dictFind kvs (pstr field)).getD pnone
  | _ => pnone

/-- Reading of the spec: the raw observed value of a RawRow. -/
def valueOfRow (row : List (PyVal × PyVal)) : PyVal :=
  (dictFind row (pstr "value")).getD pnone

/-- Reading of the spec: a time identifier of the form YR followed by
digits (at least one). -/
def matchesYRdigits (s : String) : Bool :=
  strStartsWith s "YR" && !(s.data.drop 2).isEmpty &&
    (s.data.drop 2).all Char.isDigit

/-- Failure test on the outcome of one HTTP attempt. -/
def isErr : Except String PyVal → Bool
  | .error _ => true
  | .ok _ => false

/-!
Lemmas relating the lookup built by to_lookup to the specification-side
last-entry view of a concept list.
-/

theorem dictFind_dictSet (lk : List (PyVal × PyVal)) (k v c : PyVal) :
    dictFind (dictSet lk k v) c = if k = c then some v else dictFind lk c := by
  induction lk with
  | nil => simp [dictSet, dictFind]
  | cons hd tl ih =>
      obtain ⟨k2, v2⟩ := hd
      by_cases h1 : k2 = k
      · subst h1
        simp [dictSet, dictFind]
        by_cases h2 : k2 = c <;> simp [h2]
      · simp [dictSet, h1, dictFind, ih]
        by_cases h2 : k2 = c
        · subst h2
          simp [show ¬(k = k2) from fun hh => h1 hh.symm]
        · simp [h2]

theorem dictFind_conceptStep (lk : List (PyVal × PyVal)) (x c : PyVal) :
    dictFind (conceptStep lk x) c =
      if isConceptNamed c x then some x else dictFind lk c := by
  cases x with
  | pdict kvs =>
      simp only [conceptStep]
      split
      · next cname heq =>
          rw [dictFind_dictSet]
          simp only [isConceptNamed, heq]
          by_cases h2 : cname = c
          · subst h2; simp
          · simp [h2, fun hh : c = cname => h2 hh.symm]
      · next heq => simp [isConceptNamed, heq]
  | pnone => simp [conceptStep, isConceptNamed]
  | pbool b => simp [conceptStep, isConceptNamed]
  | pint n => simp [conceptStep, isConceptNamed]
  | pfloat q => simp [conceptStep, isConceptNamed]
  | pnan => simp [conceptStep, isConceptNamed]
  | pstr s => simp [conceptStep, isConceptNamed]
  | plist xs => simp [conceptStep, isConceptNamed]

theorem lastConcept_cons (x : PyVal) (xs : List PyVal) (c : PyVal) :
    lastConcept (x :: xs) c =
      match lastConcept xs c with
      | some it => some it
      | none => if isConceptNamed c x then some x else none := by
  simp only [lastConcept, List.reverse_cons, List.find?_append]
  cases h : List.find? (isConceptNamed c) xs.reverse with
  | some it => simp [Option.orElse]
  | none =>
      simp [Option.orElse, List.find?]
      cases h2 : isConceptNamed c x <;> simp

theorem dictFind_foldl_conceptStep (xs : List PyVal) (lk : List (PyVal × PyVal)) (c : PyVal) :
    dictFind (xs.foldl conceptStep lk) c =
      match lastConcept xs c with
      | some it => some it
      | none => dictFind lk c := by
  induction xs generalizing lk with
  | nil => simp [lastConcept]
  | cons x xs ih =>
      simp only [List.foldl_cons, ih, lastConcept_cons]
      cases h : lastConcept xs c with
      | some it => simp
      | none =>
          simp only [dictFind_conceptStep]
          cases h2 : isConceptNamed c x <;> simp

theorem to_lookup_plist (xs : List PyVal) :
    to_lookup (plist xs) = .ok (xs.foldl conceptStep []) := by
  cases xs <;>
    simp [to_lookup, pyTruthy, pyIter, List.isEmpty, Bind.bind, Except.bind]

theorem to_lookup_pnone : to_lookup pnone = .ok [] := by
  simp [to_lookup, pyTruthy, pyIter, Bind.bind, Except.bind]

theorem to_lookup_row (row : List (PyVal × PyVal)) (h : rowVarOk row = true) :
    to_lookup ((dictFind row (pstr "variable")).getD (plist [])) =
      .ok ((varListOfRow row).foldl conceptStep []) := by
  unfold rowVarOk at h
  unfold varListOfRow
  cases hf : dictFind row (pstr "variable") with
  | none => simp [to_lookup_plist]
  | some v =>
      rw [hf] at h
      cases v with
      | pnone => simp [to_lookup_pnone]
      | plist xs => simp [to_lookup_plist]
      | pbool b => exact absurd h (by simp)
      | pint n => exact absurd h (by simp)
      | pfloat q => exact absurd h (by simp)
      | pnan => exact absurd h (by simp)
      | pstr s => exact absurd h (by simp)
      | pdict kvs => exact absurd h (by simp)

theorem lookupGet_fieldOf (row : List (PyVal × PyVal)) (cname field : String) :
    pyDictGetOpt (lookupGet ((varListOfRow row).foldl conceptStep []) cname)
      field = .ok (fieldOf row cname field) := by
  unfold lookupGet fieldOf
  rw [dictFind_foldl_conceptStep]
  cases h : lastConcept (varListOfRow row) (pstr cname) with
  | none => simp [dictFind, pyDictGetOpt]
  | some it =>
      unfold lastConcept at h
      have h2 := List.find?_some h
      obtain ⟨kvs, rfl⟩ : ∃ kvs, it = pdict kvs := by
        cases it <;> simp [isConceptNamed] at h2
        exact ⟨_, rfl⟩
      simp [pyDictGetOpt]

/-- The flattened record produced by parse_rows on a well-typed RawRow,
characterized field by field through the specification-side last-entry view
of the concept list. -/
theorem parse_rows_eq (row : List (PyVal × PyVal)) (h : rowVarOk row = true) :
    parse_rows row =
      .ok ⟨fieldOf row "Country" "id", fieldOf row "Country" "value",
        fieldOf row "Series" "id", fieldOf row "Series" "value",
        yearOf (fieldOf row "Time" "id"), valueOfRow row⟩ := by
  unfold parse_rows
  simp [to_lookup_row row h, Bind.bind, Except.bind, lookupGet_fieldOf,
    valueOfRow]

theorem isPyWs_of_digit (c : Char) (h : c.isDigit = true) : isPyWs c = false := by
  have h1 : ¬(c = ' ') := fun hh => by subst hh; simp [Char.isDigit] at h
  have h2 : ¬(c = '\t') := fun hh => by subst hh; simp [Char.isDigit] at h
  have h3 : ¬(c = '\n') := fun hh => by subst hh; simp [Char.isDigit] at h
  have h4 : ¬(c = '\r') := fun hh => by subst hh; simp [Char.isDigit] at h
  have h5 : ¬(c = '\x0b') := fun hh => by subst hh; simp [Char.isDigit] at h
  have h6 : ¬(c = '\x0c') := fun hh => by subst hh; simp [Char.isDigit] at h
  simp [isPyWs, h1, h2, h3, h4, h5, h6]

theorem digit_ne_underscore (c : Char) (h : c.isDigit = true) : ¬(c = '_') := by
  intro hh; subst hh; simp [Char.isDigit] at h

theorem digitsTail_all_digits (cs : List Char) (acc : Nat)
    (h : cs.all Char.isDigit = true) :
    digitsTail cs acc = some (cs.foldl (fun a c => a * 10 + digitVal c) acc) := by
  induction cs generalizing acc with
  | nil => simp [digitsTail]
  | cons c rest ih =>
      simp only [List.all_cons, Bool.and_eq_true] at h
      unfold digitsTail
      simp [digit_ne_underscore c h.1, h.1, ih _ h.2]

theorem digitsCore_all_digits (cs : List Char) (h : cs.all Char.isDigit = true)
    (hne : cs ≠ []) : digitsCore cs = some (natOfDigits cs) := by
  cases cs with
  | nil => exact absurd rfl hne
  | cons c rest =>
      simp only [List.all_cons, Bool.and_eq_true] at h
      simp [digitsCore, h.1, digitsTail_all_digits rest (digitVal c) h.2,
        natOfDigits]

theorem dropWhile_ws_all_digits (cs : List Char) (h : cs.all Char.isDigit = true) :
    cs.dropWhile isPyWs = cs := by
  cases cs with
  | nil => rfl
  | cons c rest =>
      simp only [List.all_cons, Bool.and_eq_true] at h
      simp [List.dropWhile, isPyWs_of_digit c h.1]

theorem pyIntOfString_digits (s : String) (h : s.data.all Char.isDigit = true)
    (hne : s.data ≠ []) : pyIntOfString s = some ((natOfDigits s.data : Int)) := by
  unfold pyIntOfString
  have h2 : s.data.reverse.all Char.isDigit = true := by
    simpa [List.all_reverse] using h
  rw [dropWhile_ws_all_digits s.data h, dropWhile_ws_all_digits s.data.reverse h2,
    List.reverse_reverse]
  cases hd : s.data with
  | nil => exact absurd hd hne
  | cons c rest =>
      rw [hd] at h
      simp only [List.all_cons, Bool.and_eq_true] at h
      have hplus : ¬(c = '+') := by
        intro hh; subst hh; simp [Char.isDigit] at h
      have hminus : ¬(c = '-') := by
        intro hh; subst hh; simp [Char.isDigit] at h
      simp [hplus, hminus,
        digitsCore_all_digits (c :: rest) (by simp [h.1, h.2]) (by simp), hd]

theorem fetchLoop_all_fail (attempt : Nat → Except String PyVal) (d : Rat)
    (n : Nat) (hfail : ∀ k, k < n → isErr (attempt k) = true) :
    ∀ r k, 1 ≤ r → k + r ≤ n →
      fetchLoop attempt d r k =
        ⟨pdict [], ∑ i in Finset.Ico (k + 1) (k + r), d * (i : Rat), r⟩ := by
  intro r
  induction r with
  | zero => intro k h1 h2; omega
  | succ r ih =>
      intro k h1 h2
      have hk : k < n := by omega
      have herr := hfail k hk
      cases hA : attempt k with
      | ok v => rw [hA] at herr; simp [isErr] at herr
      | error e =>
          by_cases hr : r = 0
          · subst hr
            simp [fetchLoop, hA, Finset.Ico_self]
          · have hr1 : 1 ≤ r := by omega
            have hrec := ih (k + 1) hr1 (by omega)
            simp only [fetchLoop, hA, hr, if_false]
            rw [hrec]
            have hsum : (∑ i in Finset.Ico (k + 1) (k + (r + 1)), d * (i : Rat))
                = d * ((k : Rat) + 1) +
                  ∑ i in Finset.Ico (k + 1 + 1) (k + 1 + r), d * (i : Rat) := by
              rw [Finset.sum_eq_sum_Ico_succ_bot (by omega)]
              push_cast
              ring_nf
            simp [hsum]

/-!
Concrete inputs used by the claim theorems and witnesses.
-/

/-- The well-formed EGY row of the end-to-end scenario of the spec. -/
def rowEgy : List (PyVal × PyVal) :=
  [(pstr "variable", plist
      [pdict [(pstr "concept", pstr "Country"), (pstr "id", pstr "EGY"),
              (pstr "value", pstr "Egypt")],
       pdict [(pstr "concept", pstr "Series"), (pstr "id", pstr "X.1"),
              (pstr "value", pstr "Test Series")],
       pdict [(pstr "concept", pstr "Time"), (pstr "id", pstr "YR2020"),
              (pstr "value", pstr "2020")]]),
   (pstr "value", pstr "5.3")]

/-- Page-1 payload of the end-to-end scenario: reports one page and two
rows, of which only rowEgy is a dict. -/
def payloadEgy : PyVal :=
  pdict [(pstr "pages", pint 1),
         (pstr "source", pdict [(pstr "data", plist [pdict rowEgy, pnone])])]

def fetchEgy : Int → PyVal := fun p => if p = 1 then payloadEgy else pdict []

/-- A row holding only a Country concept entry. -/
def rowA : List (PyVal × PyVal) :=
  [(pstr "variable", plist
      [pdict [(pstr "concept", pstr "Country"), (pstr "id", pstr "EGY"),
              (pstr "value", pstr "Egypt")]]),
   (pstr "value", pint 1)]

/-- Page-1 payload reporting three pages with one data row. -/
def payloadA : PyVal :=
  pdict [(pstr "pages", pint 3),
         (pstr "source", pdict [(pstr "data", plist [pdict rowA])])]

/-- A later-page payload whose own data list is empty (flattens to zero
rows). -/
def payloadEmptyRows : PyVal :=
  pdict [(pstr "source", pdict [(pstr "data", plist [])])]

/-- Network for the later-page scenario: page 1 returns payloadA, every
later page returns payloadEmptyRows. -/
def fetchC1 : Int → PyVal :=
  fun p => if p = 1 then payloadA else payloadEmptyRows

/-- The record flattened from rowA and tagged with EGY. -/
def recA : FlatRecord :=
  ⟨pstr "EGY", pstr "Egypt", pnone, pnone, none, some 1, "EGY"⟩

/-- A row whose Time identifier has a signed suffix after YR. -/
def rowYRneg : List (PyVal × PyVal) :=
  [(pstr "variable", plist
      [pdict [(pstr "concept", pstr "Time"), (pstr "id", pstr "YR-5")]])]

/-- A row whose Time identifier is YR followed by digits. -/
def rowYR1998 : List (PyVal × PyVal) :=
  [(pstr "variable", plist
      [pdict [(pstr "concept", pstr "Time"), (pstr "id", pstr "YR1998")]])]

/-- Claim C1: the spec says a non-first page is flattened from its own
response payload and an empty flattened result stops pagination. The code
instead re-reads the rows of the page-1 payload for every later page, so
with page 1 holding one row, three reported pages and every later page
returning an empty data list, pagination never stops early and the page-1
row is appended once per page: the run fetches pages 1, 2 and 3 and returns
three copies of the page-1 record instead of the single record the spec
prescribes. -/
theorem C1_loop_rereads_page1_rows :
    processCountry fetchC1 "EGY" = ([1, 2, 3], .ok (some [recA, recA, recA]))
      ∧ parsePage [(pstr "source", pdict [(pstr "data", plist [])])] = .ok []
      ∧ fetchC1 2 = payloadEmptyRows := by
  refine ⟨by decide, by decide, by decide⟩

/-- Claim C2: the spec says a run in which no country yields data completes
with a warning and no exception. On the code, when every fetch returns the
empty sentinel every country is skipped, the combined list is empty, and
the final summary line evaluates len of the never-assigned variable df,
raising NameError: the whole run aborts with an exception. -/
theorem C2_empty_run_raises_NameError :
    fullRun (fun _ _ => pdict []) =
      .error "NameError: name df is not defined" := by
  decide

/-- Claim C5: end-to-end scenario for country EGY. Page 1 reports one page
and two rows of which one is the well-formed row with Country EGY/Egypt,
Series X.1/Test Series, Time YR2020 and string value 5.3; the resulting
country dataset holds exactly one record with year 2020 and the value
coerced to the number 5.3. -/
theorem C5_end_to_end :
    processCountry fetchEgy "EGY" =
      ([1], .ok (some [⟨pstr "EGY", pstr "Egypt", pstr "X.1",
        pstr "Test Series", some 2020, some (5.3 : Rat), "EGY"⟩])) := by
  rw [show (5.3 : Rat) = mkRat 53 10 by norm_num]
  decide

/-- Claim C3 (counterexample): the claim states the year is present only if
the time identifier matches YR followed by digits. The identifier YR-5 does
not match that pattern, yet the flattened record carries year -5, because
the Python int constructor also accepts a sign. -/
theorem C3_counterexample :
    matchesYRdigits "YR-5" = false ∧
    fieldOf rowYRneg "Time" "id" = pstr "YR-5" ∧
    parse_rows rowYRneg = .ok ⟨pnone, pnone, pnone, pnone, some (-5), pnone⟩ := by
  refine ⟨by decide, by decide, by decide⟩

/-- Claim C3 (amended): for every well-typed RawRow, parse_rows succeeds
(no parse failure reaches the caller) and the year field equals the
YR-rule applied to the id of the last Time concept entry: the year is
present exactly when that id is a string starting with YR whose remainder
parses as a Python integer (which also accepts surrounding whitespace, one
sign, and underscores between digits); any identifier of the form YR
followed by digits yields exactly that number. -/
theorem C3_year_rule (row : List (PyVal × PyVal)) (h : rowVarOk row = true) :
    ∃ rec, parse_rows row = .ok rec ∧
      rec.year = yearOf (fieldOf row "Time" "id") ∧
      (∀ s : String, ∀ y : Int, yearOf (pstr s) = some y →
        strStartsWith s "YR" = true ∧ pyIntOfString (strDropChars s 2) = some y) ∧
      (∀ s : String, matchesYRdigits s = true →
        yearOf (pstr s) = some ((natOfDigits (s.data.drop 2) : Int))) := by
  refine ⟨_, parse_rows_eq row h, rfl, ?_, ?_⟩
  · intro s y hy
    have hy2 : (if strStartsWith s "YR" = true then
        pyIntOfString (strDropChars s 2) else none) = some y := hy
    by_cases hs : strStartsWith s "YR" = true
    · rw [if_pos hs] at hy2
      exact ⟨hs, hy2⟩
    · rw [if_neg hs] at hy2
      exact absurd hy2 (by simp)
  · intro s hs
    unfold matchesYRdigits at hs
    simp only [Bool.and_eq_true] at hs
    obtain ⟨⟨h1, h2⟩, h3⟩ := hs
    show (if strStartsWith s "YR" = true then
      pyIntOfString (strDropChars s 2) else none) = _
    rw [if_pos h1]
    have hdata : (strDropChars s 2).data = s.data.drop 2 := rfl
    rw [pyIntOfString_digits (strDropChars s 2) (by rw [hdata]; exact h3)
      (by rw [hdata]; simpa using h2), hdata]

/-- Witness for C3: a row whose time identifier is YR1998; the amended rule
gives year 1998 through the last conjunct applied at YR1998. -/
theorem C3_year_rule_witness :
    rowVarOk rowYR1998 = true ∧
    (∃ rec, parse_rows rowYR1998 = .ok rec ∧
      rec.year = yearOf (fieldOf rowYR1998 "Time" "id") ∧
      (∀ s : String, ∀ y : Int, yearOf (pstr s) = some y →
        strStartsWith s "YR" = true ∧ pyIntOfString (strDropChars s 2) = some y) ∧
      (∀ s : String, matchesYRdigits s = true →
        yearOf (pstr s) = some ((natOfDigits (s.data.drop 2) : Int)))) :=
  ⟨by decide, C3_year_rule rowYR1998 (by decide)⟩

/-- Claim C4: when all max_retries attempts fail with a request error,
fetch_one_page returns the empty-dict sentinel rather than raising, after
making exactly max_retries attempts, and the total backoff slept is the sum
of delay times k for k from 1 to max_retries minus 1. -/
theorem C4_fetch_exhaustion (attempt : Nat → Except String PyVal) (n : Nat)
    (d : Rat) (hn : 1 ≤ n) (hfail : ∀ k, k < n → isErr (attempt k) = true) :
    fetch_one_page attempt (n : Int) d =
      ⟨pdict [], ∑ k in Finset.Icc 1 (n - 1), d * (k : Rat), n⟩ := by
  unfold fetch_one_page
  rw [Int.toNat_natCast]
  rw [fetchLoop_all_fail attempt d n hfail n 0 hn (by omega)]
  have hIco : Finset.Ico (0 + 1) (0 + n) = Finset.Icc 1 (n - 1) := by
    rw [Nat.zero_add, Nat.zero_add, ← Nat.Ico_succ_right]
    congr 1
    omega
  rw [hIco]

def attemptFail : Nat → Except String PyVal := fun _ => .error "ConnectionError"

/-- Witness for C4: three attempts all failing, base delay 2. -/
theorem C4_fetch_exhaustion_witness :
    1 ≤ 3 ∧ (∀ k, k < 3 → isErr (attemptFail k) = true) ∧
    fetch_one_page attemptFail ((3 : Nat) : Int) 2 =
      ⟨pdict [], ∑ k in Finset.Icc (1 : Nat) (3 - 1), 2 * (k : Rat), 3⟩ :=
  ⟨by decide, by decide, C4_fetch_exhaustion attemptFail 3 2 (by decide) (by decide)⟩

/-- Claim C6: to_lookup reads a missing or null concept list as empty,
skips items that are not dicts owning a concept field, and resolves every
concept name to the last entry of the list carrying that name, so a later
entry overwrites an earlier one with the same name without error. -/
theorem C6_to_lookup_spec (xs : List PyVal) (c bad : PyVal)
    (lk : List (PyVal × PyVal)) (hbad : isConceptEntry bad = false) :
    to_lookup pnone = .ok [] ∧
    conceptStep lk bad = lk ∧
    ∃ lkx, to_lookup (plist xs) = .ok lkx ∧ dictFind lkx c = lastConcept xs c := by
  refine ⟨to_lookup_pnone, ?_, xs.foldl conceptStep [], to_lookup_plist xs, ?_⟩
  · cases bad with
    | pdict kvs =>
        simp only [isConceptEntry] at hbad
        simp only [conceptStep]
        cases hf : dictFind kvs (pstr "concept") with
        | some v => rw [hf] at hbad; simp at hbad
        | none => rfl
    | pnone => rfl
    | pbool b => rfl
    | pint n => rfl
    | pfloat q => rfl
    | pnan => rfl
    | pstr s => rfl
    | plist ys => rfl
  · rw [dictFind_foldl_conceptStep]
    cases h : lastConcept xs c <;> simp [dictFind]

def conceptsDup : List PyVal :=
  [pdict [(pstr "concept", pstr "Country"), (pstr "id", pstr "OLD")],
   pint 7,
   pdict [(pstr "noconcept", pstr "x")],
   pdict [(pstr "concept", pstr "Country"), (pstr "id", pstr "NEW")]]

/-- Witness for C6: a list with two Country entries and two skippable
items; the lookup binds Country to the later entry. -/
theorem C6_to_lookup_spec_witness :
    isConceptEntry (pint 7) = false ∧
    (to_lookup pnone = .ok [] ∧
     conceptStep [(pstr "k", pnone)] (pint 7) = [(pstr "k", pnone)] ∧
     ∃ lkx, to_lookup (plist conceptsDup) = .ok lkx ∧
       dictFind lkx (pstr "Country") = lastConcept conceptsDup (pstr "Country")) :=
  ⟨by decide,
   C6_to_lookup_spec conceptsDup (pstr "Country") (pint 7)
     [(pstr "k", pnone)] (by decide)⟩

/-- Claim C7: parse_rows is total on well-typed RawRows: it always returns
a record, and when the concept list holds no Country entry both country_id
and country_name are absent. -/
theorem C7_flatten_total (row : List (PyVal × PyVal)) (h : rowVarOk row = true) :
    ∃ rec, parse_rows row = .ok rec ∧
      (lastConcept (varListOfRow row) (pstr "Country") = none →
        rec.country_id = pnone ∧ rec.country_name = pnone) := by
  refine ⟨_, parse_rows_eq row h, ?_⟩
  intro hnone
  unfold fieldOf
  rw [hnone]
  exact ⟨rfl, rfl⟩

/-- Witness for C7: the Time-only row has no Country entry, and both
country fields come out absent. -/
theorem C7_flatten_total_witness :
    rowVarOk rowYR1998 = true ∧
    (∃ rec, parse_rows rowYR1998 = .ok rec ∧
      (lastConcept (varListOfRow rowYR1998) (pstr "Country") = none →
        rec.country_id = pnone ∧ rec.country_name = pnone)) :=
  ⟨by decide, C7_flatten_total rowYR1998 (by decide)⟩

/-- Claim C8: a country whose first page flattens to zero rows is finished
immediately with no dataset: only page 1 is fetched (whatever total-page
count the payload reports) and the country contributes nothing. -/
theorem C8_empty_first_page (fetch : Int → PyVal) (code : String)
    (kvs : List (PyVal × PyVal)) (h1 : fetch 1 = pdict kvs) (h2 : kvs ≠ [])
    (h3 : parsePage kvs = .ok []) :
    processCountry fetch code = ([1], .ok none) := by
  unfold processCountry
  rw [h1]
  simp [pyTruthy, List.isEmpty_iff, h2, asDict, h3]

def payloadPages5 : PyVal :=
  pdict [(pstr "pages", pint 5),
         (pstr "source", pdict [(pstr "data", plist [])])]

def kvsPages5 : List (PyVal × PyVal) :=
  [(pstr "pages", pint 5),
   (pstr "source", pdict [(pstr "data", plist [])])]

def fetchPages5 : Int → PyVal := fun p => if p = 1 then payloadPages5 else pdict []

/-- Witness for C8: page 1 reports five pages but flattens to zero rows;
only page 1 is fetched and the country yields nothing. -/
theorem C8_empty_first_page_witness :
    fetchPages5 1 = pdict kvsPages5 ∧ kvsPages5 ≠ [] ∧
    parsePage kvsPages5 = .ok [] ∧
    processCountry fetchPages5 "EGY" = ([1], .ok none) :=
  ⟨by decide, by decide, by decide,
   C8_empty_first_page fetchPages5 "EGY" kvsPages5 (by decide) (by decide)
     (by decide)⟩

/-- Claim C9: inside the later-pages loop, a page whose fetch returns a
falsy payload is only skipped: that page number is recorded and the loop
continues with the remaining page numbers, its outcome unchanged, so one
failed page never aborts pagination for the country. -/
theorem C9_failed_page_skipped (fetch : Int → PyVal)
    (payloadKvs : List (PyVal × PyVal)) (p : Int) (ps : List Int)
    (hf : pyTruthy (fetch p) = false) :
    pagesLoop fetch payloadKvs (p :: ps) =
      (p :: (pagesLoop fetch payloadKvs ps).1,
        (pagesLoop fetch payloadKvs ps).2) := by
  simp only [pagesLoop, hf]
  simp

def fetchFail2 : Int → PyVal :=
  fun p => if p = 2 then pdict [] else payloadA

/-- Witness for C9: page 2 returns the empty sentinel; the loop over pages
2 and 3 records page 2 and proceeds exactly as the loop over page 3. -/
theorem C9_failed_page_skipped_witness :
    pyTruthy (fetchFail2 2) = false ∧
    pagesLoop fetchFail2 [] [2, 3] =
      (2 :: (pagesLoop fetchFail2 [] [3]).1, (pagesLoop fetchFail2 [] [3]).2) :=
  ⟨by decide, C9_failed_page_skipped fetchFail2 [] 2 [3] (by decide)⟩

/-- Claim C10: a call of fetch_one_page with a non-positive max_retries
performs no attempt and returns Python None, which is neither a dict
payload nor the empty-dict sentinel, so the documented RawPage-or-Empty
interface does not hold at this boundary input. -/
theorem C10_nonpositive_retries (attempt : Nat → Except String PyVal)
    (d : Rat) (m : Int) (hm : m ≤ 0) :
    fetch_one_page attempt m d = ⟨pnone, 0, 0⟩ ∧
    pnone ≠ pdict ([] : List (PyVal × PyVal)) ∧ asDictOpt pnone = none := by
  refine ⟨?_, by decide, rfl⟩
  unfold fetch_one_page
  rw [Int.toNat_of_nonpos hm]
  rfl

def attemptOk : Nat → Except String PyVal :=
  fun _ => .ok (pdict [(pstr "pages", pint 1)])

/-- Witness for C10: zero retries with an attempt function that would
succeed; still no attempt is made and None is returned. -/
theorem C10_nonpositive_retries_witness :
    (0 : Int) ≤ 0 ∧
    (fetch_one_page attemptOk 0 2 = ⟨pnone, 0, 0⟩ ∧
     pnone ≠ pdict ([] : List (PyVal × PyVal)) ∧ asDictOpt pnone = none) :=
  ⟨by decide, C10_nonpositive_retries attemptOk 2 0 (by decide)⟩
